import Mathlib

/-!
Verification of the db_compare diff-to-DDL compiler and migration lifecycle
(src/main.py, class DBReviser) against its natural-language specification.

The Python code is shallowly embedded below.  Python lists become Lean lists,
dicts with known keys become structures, `dict.get` with absent keys becomes
Option, Python exceptions (NotImplementedError, IndexError, ValueError,
TypeError) become an explicit error type threaded through Except, and the
external collaborators (database cursors, the filesystem, the operator prompt)
become explicit function arguments.  Python string formatting becomes string
concatenation; str.join becomes joinWith.
-/

namespace DbCompare

/-- Python exceptions that the embedded code can raise. -/
inductive PyErr where
  | notImplemented (msg : String)
  | indexError
  | valueError
  | typeError
  deriving DecidableEq, Repr

/-- Embedding of Python sep.join(list): empty string on [], otherwise the
elements interleaved with the separator. -/
def joinWith (sep : String) : List String → String
  | [] => ""
  | [x] => x
  | x :: y :: rest => x ++ sep ++ joinWith sep (y :: rest)

/-- Python "\n".join, the join used throughout main.py. -/
def joinNL (l : List String) : String := joinWith "\n" l

/-- A row of `DESCRIBE <table>`: the 6-tuple
(name, type, nullable "YES"/"NO", key "PRI"/"UNI"/"", default, extra). -/
structure DescCol where
  name : String
  type : String
  nullable : String
  key : String
  default : Option String
  extra : String
  deriving DecidableEq, Repr

/-- Column-clause assembly inside create_table_script (main.py lines 39-57). -/
def columnDef (c : DescCol) : String :=
  let col_def := c.name ++ " " ++ c.type
  let col_def := if c.nullable = "NO" then col_def ++ " NOT NULL" else col_def
  let col_def :=
    if c.key = "" then col_def
    else
      let col_def := if c.key = "PRI" then col_def ++ " PRIMARY KEY" else col_def
      if c.key = "UNI" then col_def ++ " UNIQUE" else col_def
  let col_def :=
    match c.default with
    | some d => col_def ++ " DEFAULT \x27" ++ d ++ "\x27"
    | none => col_def
  if c.extra = "" then col_def else col_def ++ " " ++ c.extra

/-- DBReviser.create_table_script (main.py lines 36-60). -/
def create_table_script (rdb table_name : String) (columns : List DescCol) : String :=
  "CREATE TABLE " ++ rdb ++ "." ++ table_name ++ " ("
    ++ joinWith ", " (columns.map columnDef) ++ ");"

/-- DBReviser.read_db_schema (main.py lines 25-34): DESCRIBE each table on the
left connection; a table whose DESCRIBE yields no row never reaches the
defaultdict and is skipped.  The cursor is abstracted as schemaOf. -/
def read_db_schema (schemaOf : String → List DescCol) (tables_to_add : List String) :
    List (String × List DescCol) :=
  (tables_to_add.filter (fun t => !(schemaOf t).isEmpty)).map (fun t => (t, schemaOf t))

/-- DBReviser.create_tables_ddl (main.py lines 62-69). -/
def create_tables_ddl (rdb : String) (tables_info : List (String × List DescCol)) : String :=
  joinNL (tables_info.map (fun p => create_table_script rdb p.1 p.2))

/-- The `tables` facet of the diff model: table names present only left
(create) or only right (drop). -/
structure TablesFacet where
  left_only : List String := []
  right_only : List String := []
  deriving DecidableEq, Repr

/-- DBReviser.process_schema_change (main.py lines 71-89). -/
def process_schema_change (rdb : String) (schemaOf : String → List DescCol)
    (tables : TablesFacet) : String :=
  let migration_ddl : List String :=
    (if tables.left_only.isEmpty then []
     else [create_tables_ddl rdb (read_db_schema schemaOf tables.left_only)])
    ++ (if tables.right_only.isEmpty then []
        else [joinNL (tables.right_only.map
          (fun table => "DROP table " ++ rdb ++ "." ++ table ++ ";"))])
  joinNL migration_ddl

/-- A column descriptor dict as produced by the comparator; absent keys are
none (dict.get semantics). -/
structure Field where
  name : String
  type : String
  nullable : Option Bool := none
  autoincrement : Option Bool := none
  default : Option String := none
  comment : Option String := none
  deriving DecidableEq, Repr

/-- Python truthiness of an optional bool (absent key is falsy). -/
def optTruthy : Option Bool → Bool
  | some b => b
  | none => false

/-- DBReviser.alter_table_writer (main.py lines 224-233). -/
def alter_table_writer (rdb table_name : String) (left_field : Field)
    (col_action : String) (pk : Bool) : String :=
  let col_def := "ALTER TABLE " ++ rdb ++ "." ++ table_name
  let col_def := col_def ++ " " ++ col_action ++ " COLUMN "
    ++ left_field.name ++ " " ++ left_field.type
  let col_def := col_def ++ (if pk then " PRIMARY KEY" else "")
  let col_def := col_def
    ++ (if optTruthy left_field.autoincrement then " AUTO_INCREMENT" else "")
  let col_def := col_def ++ (if optTruthy left_field.nullable then "" else " NOT NULL")
  let col_def := col_def
    ++ (match left_field.default with
        | some d => " DEFAULT " ++ d
        | none => "")
  let col_def := col_def
    ++ (match left_field.comment with
        | some c => if c = "" then "" else " COMMENT \x27" ++ c ++ "\x27"
        | none => "")
  col_def ++ ";"

/-- The primary-key flag loop shared by process_diff_columns_change and
process_same_columns_change (main.py lines 95-98 and 108-112). -/
def pkFlag (left_primary_keys : List String) (n : String) : Bool :=
  left_primary_keys.foldl (fun pk primary_key => if primary_key = n then true else pk) false

/-- DBReviser.process_diff_columns_change (main.py lines 91-101). -/
def process_diff_columns_change (rdb : String) (left_only : List Field)
    (left_primary_keys : List String) (table_name : String) : String :=
  joinNL (left_only.map
    (fun field => alter_table_writer rdb table_name field "ADD"
      (pkFlag left_primary_keys field.name)))

/-- One entry of a columns `diff` list: a dict with the left and right
descriptors; only the left one is ever read. -/
structure DiffPair where
  left : Field
  right : Option Field := none
  deriving DecidableEq, Repr

/-- DBReviser.process_same_columns_change (main.py lines 103-116). -/
def process_same_columns_change (rdb : String) (differences : List DiffPair)
    (left_primary_keys : List String) (table_name : String) : String :=
  joinNL (differences.map
    (fun field => alter_table_writer rdb table_name field.left "MODIFY"
      (pkFlag left_primary_keys field.left.name)))

/-- The `columns` facet of a per-table diff. -/
structure ColumnsFacet where
  right_only : List Field := []
  left_only : List Field := []
  diff : List DiffPair := []
  deriving DecidableEq, Repr

/-- The `primary_keys` facet of a per-table diff (entries are names). -/
structure PKFacet where
  left_only : List String := []
  right_only : List String := []
  deriving DecidableEq, Repr

/-- DBReviser.process_column_change (main.py lines 140-153). -/
def process_column_change (rdb : String) (columns : ColumnsFacet)
    (primary_keys : PKFacet) (table_name : String) : String :=
  joinNL
    (columns.right_only.map
      (fun column => "ALTER TABLE " ++ rdb ++ "." ++ table_name
        ++ " DROP COLUMN " ++ column.name ++ ";")
    ++ [process_diff_columns_change rdb columns.left_only primary_keys.left_only table_name,
        process_same_columns_change rdb columns.diff primary_keys.left_only table_name])

/-- An index descriptor. -/
structure IndexD where
  name : String
  column_names : List String
  unique : Bool
  deriving DecidableEq, Repr

/-- The `indexes` facet of a per-table diff. -/
structure IdxFacet where
  right_only : List IndexD := []
  left_only : List IndexD := []
  deriving DecidableEq, Repr

/-- Message of the NotImplementedError raised on a compound index. -/
def idxErrMsg : String :=
  "Пока не умею обрабатывать индексы со ссылками на несколько полей"

/-- The right_only loop of process_index_change (main.py lines 161-167). -/
def idxDropStmts (rdb table_name : String) : List IndexD → Except PyErr (List String)
  | [] => .ok []
  | index :: rest =>
    if index.column_names.length > 1 then .error (.notImplemented idxErrMsg)
    else do
      let r ← idxDropStmts rdb table_name rest
      pure (("DROP INDEX " ++ index.name ++ " ON " ++ rdb ++ "." ++ table_name ++ ";") :: r)

/-- The left_only loop of process_index_change (main.py lines 169-179); the
[0] access on an empty column list is a Python IndexError. -/
def idxCreateStmts (rdb table_name : String) : List IndexD → Except PyErr (List String)
  | [] => .ok []
  | index :: rest =>
    if index.column_names.length > 1 then .error (.notImplemented idxErrMsg)
    else
      match index.column_names with
      | [] => .error .indexError
      | field_name :: _ => do
        let r ← idxCreateStmts rdb table_name rest
        pure (("CREATE " ++ (if index.unique then "UNIQUE" else "") ++ " INDEX "
          ++ index.name ++ " ON " ++ rdb ++ "." ++ table_name
          ++ "(" ++ field_name ++ ");") :: r)

/-- DBReviser.process_index_change (main.py lines 155-181). -/
def process_index_change (rdb : String) (indexes : IdxFacet) (table_name : String) :
    Except PyErr String := do
  let d ← idxDropStmts rdb table_name indexes.right_only
  let c ← idxCreateStmts rdb table_name indexes.left_only
  pure (joinNL (d ++ c))

/-- DBReviser.process_primary_keys (main.py lines 183-190). -/
def process_primary_keys (rdb : String) (primary_keys : PKFacet) (table_name : String) :
    String :=
  joinNL (primary_keys.right_only.map
    (fun _ => "ALTER TABLE " ++ rdb ++ "." ++ table_name ++ " DROP PRIMARY KEY;"))

/-- A foreign-key descriptor. -/
structure FKey where
  name : String
  constrained_columns : List String
  referred_table : String
  referred_columns : List String
  deriving DecidableEq, Repr

/-- The `foreign_keys` facet of a per-table diff. -/
structure FKFacet where
  right_only : List FKey := []
  left_only : List FKey := []
  deriving DecidableEq, Repr

/-- Message of the NotImplementedError raised on a compound foreign key. -/
def fkErrMsg : String :=
  "Пока не умею обрабатывать FK ссылающиеся на более чем 1 поле"

/-- The right_only loop of process_foreign_keys (main.py lines 197-203): only
referred_columns is length-checked before the DROP statement is appended. -/
def fkDropStmts (rdb table_name : String) : List FKey → Except PyErr (List String)
  | [] => .ok []
  | k :: rest =>
    if k.referred_columns.length > 1 then .error (.notImplemented fkErrMsg)
    else do
      let r ← fkDropStmts rdb table_name rest
      pure (("ALTER TABLE " ++ rdb ++ "." ++ table_name
        ++ " DROP FOREIGN KEY " ++ k.name ++ ";") :: r)

/-- DBReviser.process_foreign_keys (main.py lines 192-222).  The
`return "\n".join(sql_commands)` sits INSIDE the left_only loop, so the
function returns during the first iteration; when left_only is empty the
function falls off the end and returns Python None (modelled as ok none). -/
def process_foreign_keys (rdb : String) (foreign_keys : FKFacet) (table_name : String) :
    Except PyErr (Option String) := do
  let drops ← fkDropStmts rdb table_name foreign_keys.right_only
  match foreign_keys.left_only with
  | [] => pure none
  | k :: _ =>
    if k.constrained_columns.length > 1 then .error (.notImplemented fkErrMsg)
    else
      match k.constrained_columns with
      | [] => .error .indexError
      | fk_field :: _ =>
        if k.referred_columns.length > 1 then .error (.notImplemented fkErrMsg)
        else
          match k.referred_columns with
          | [] => .error .indexError
          | ref_column :: _ =>
            pure (some (joinNL (drops ++
              ["ALTER TABLE " ++ rdb ++ "." ++ table_name ++ " ADD CONSTRAINT "
                ++ k.name ++ " FOREIGN KEY (" ++ fk_field ++ ") REFERENCES "
                ++ rdb ++ "." ++ k.referred_table ++ "(" ++ ref_column ++ ");"])))

/-- A per-table diff (the value of one tables_data entry); a facet that is
absent, or present as an empty falsy dict, is none. -/
structure TableDiff where
  columns : Option ColumnsFacet := none
  indexes : Option IdxFacet := none
  primary_keys : Option PKFacet := none
  foreign_keys : Option FKFacet := none
  deriving DecidableEq, Repr

/-- Python "\n".join over a list that may hold None (as sql_commands does in
process_tables_change once process_foreign_keys returns None): joining a
non-string raises TypeError. -/
def pyJoin (l : List (Option String)) : Except PyErr String :=
  if l.all Option.isSome then .ok (joinNL (l.filterMap id)) else .error .typeError

/-- The body of the process_tables_change loop for one table
(main.py lines 121-136): the four facets are handled in the fixed order
columns, indexes, primary keys, foreign keys. -/
def tableCmds (rdb table_name : String) (changes : TableDiff) :
    Except PyErr (List (Option String)) := do
  let pkF := changes.primary_keys.getD {}
  let l1 : List (Option String) :=
    match changes.columns with
    | some columns => [some (process_column_change rdb columns pkF table_name)]
    | none => []
  let l2 ←
    match changes.indexes with
    | some indexes => do
      let s ← process_index_change rdb indexes table_name
      pure (l1 ++ [some s])
    | none => pure l1
  let l3 :=
    match changes.primary_keys with
    | some pks => l2 ++ [some (process_primary_keys rdb pks table_name)]
    | none => l2
  match changes.foreign_keys with
  | some fks => do
    let s ← process_foreign_keys rdb fks table_name
    pure (l3 ++ [s])
  | none => pure l3

/-- The accumulated sql_commands of process_tables_change across tables. -/
def tablesCmds (rdb : String) : List (String × TableDiff) → Except PyErr (List (Option String))
  | [] => .ok []
  | (table_name, changes) :: rest => do
    let c ← tableCmds rdb table_name changes
    let r ← tablesCmds rdb rest
    pure (c ++ r)

/-- DBReviser.process_tables_change (main.py lines 118-138). -/
def process_tables_change (rdb : String) (diff : List (String × TableDiff)) :
    Except PyErr String := do
  let cmds ← tablesCmds rdb diff
  pyJoin cmds

/-- The diff model consumed by compare_schemas: result.errors with its two
facets (tables keyed by left_only/right_only, tables_data keyed by table). -/
structure DiffModel where
  tables : TablesFacet
  tables_data : List (String × TableDiff)
  deriving DecidableEq, Repr

/-- Truthiness of the `tables` facet dict inside compare_schemas. -/
def tablesTruthy (t : TablesFacet) : Bool :=
  !t.left_only.isEmpty || !t.right_only.isEmpty

/-- Observable outcome of one compare_schemas call. -/
structure RunReport where
  needSecondRun : Bool
  reportedIdentical : Bool
  output : String
  artifactWritten : Bool
  deriving DecidableEq, Repr

/-- DBReviser.compare_schemas (main.py lines 235-262) together with
create_migration_file (lines 272-275): when get_differences returns None the
identical message is printed and no file is written; otherwise the two facets
are compiled and the joined DDL is always written to a migration file, even
when it is empty. -/
def compare_schemas (rdb : String) (schemaOf : String → List DescCol)
    (diff : Option DiffModel) : Except PyErr RunReport := do
  match diff with
  | none => pure ⟨false, true, "", false⟩
  | some d =>
    let schema_changed := tablesTruthy d.tables
    let columns_changed := !d.tables_data.isEmpty
    let ddl1 : List String :=
      if schema_changed then [process_schema_change rdb schemaOf d.tables] else []
    let ddl2 ←
      if columns_changed then do
        let s ← process_tables_change rdb d.tables_data
        pure (ddl1 ++ [s])
      else pure ddl1
    pure ⟨schema_changed || columns_changed, false, joinNL ddl2, true⟩

/-- Parsed minute-precision timestamp of a migration file name. -/
structure TS where
  y : Nat
  mo : Nat
  d : Nat
  h : Nat
  mi : Nat
  deriving DecidableEq, Repr

/-- Encoding under which comparison of valid timestamps (two-digit month, day,
hour and minute fields) coincides with datetime comparison. -/
def TS.encode (t : TS) : Nat :=
  t.y * 100000000 + t.mo * 1000000 + t.d * 10000 + t.h * 100 + t.mi

/-- Read exactly n digits from the front of a character list. -/
def readDigits (acc : Nat) : Nat → List Char → Option (Nat × List Char)
  | 0, cs => some (acc, cs)
  | _ + 1, [] => none
  | n + 1, c :: cs =>
    if c.isDigit then readDigits (acc * 10 + (c.toNat - 48)) n cs else none

/-- Consume a literal prefix from a character list. -/
def dropPrefixL : List Char → List Char → Option (List Char)
  | [], cs => some cs
  | _ :: _, [] => none
  | p :: ps, c :: cs => if c = p then dropPrefixL ps cs else none

/-- Expect a dash. -/
def expectDash : List Char → Option (List Char)
  | '-' :: cs => some cs
  | _ => none

/-- The regex migration_(\d{4}-\d{2}-\d{2}-\d{2}-\d{2}) applied with
re.match semantics (anchored at the start, trailing characters allowed),
main.py line 288. -/
def matchTS (s : String) : Option TS := do
  let cs ← dropPrefixL "migration_".data s.data
  let (y, cs) ← readDigits 0 4 cs
  let cs ← expectDash cs
  let (mo, cs) ← readDigits 0 2 cs
  let cs ← expectDash cs
  let (d, cs) ← readDigits 0 2 cs
  let cs ← expectDash cs
  let (h, cs) ← readDigits 0 2 cs
  let cs ← expectDash cs
  let (mi, _) ← readDigits 0 2 cs
  pure ⟨y, mo, d, h, mi⟩

/-- Leap year rule used by datetime. -/
def isLeap (y : Nat) : Bool :=
  y % 4 = 0 && (y % 100 ≠ 0 || y % 400 = 0)

/-- Days in a month as validated by datetime.strptime. -/
def daysInMonth (y mo : Nat) : Nat :=
  if mo = 1 || mo = 3 || mo = 5 || mo = 7 || mo = 8 || mo = 10 || mo = 12 then 31
  else if mo = 4 || mo = 6 || mo = 9 || mo = 11 then 30
  else if isLeap y then 29
  else 28

/-- Range validation performed by datetime.strptime("%Y-%m-%d-%H-%M"); a
matched name failing it raises ValueError. -/
def timeValid (t : TS) : Bool :=
  1 ≤ t.y && 1 ≤ t.mo && t.mo ≤ 12 && 1 ≤ t.d && t.d ≤ daysInMonth t.y t.mo
    && t.h ≤ 23 && t.mi ≤ 59

/-- The find_latest_migration_file loop (main.py lines 292-300), the directory
listing abstracted as the input list; latest_time/latest_file are the
accumulator. -/
def findLatestGo : List String → Option (TS × String) → Except PyErr (Option String)
  | [], acc => .ok (acc.map (fun p => p.2))
  | file :: rest, acc =>
    match matchTS file with
    | none => findLatestGo rest acc
    | some t =>
      if timeValid t then
        match acc with
        | none => findLatestGo rest (some (t, file))
        | some (t0, f0) =>
          if t0.encode < t.encode then findLatestGo rest (some (t, file))
          else findLatestGo rest (some (t0, f0))
      else .error .valueError

/-- DBReviser.find_latest_migration_file (main.py lines 285-302). -/
def find_latest_migration_file (listing : List String) : Except PyErr (Option String) :=
  findLatestGo listing none

/-- Python str.lower restricted to the alphabets that can occur in the
confirmation answer tokens (ASCII and the Cyrillic А-Я range). -/
def pyLowerChar (c : Char) : Char :=
  if 65 ≤ c.toNat ∧ c.toNat ≤ 90 then Char.ofNat (c.toNat + 32)
  else if 1040 ≤ c.toNat ∧ c.toNat ≤ 1071 then Char.ofNat (c.toNat + 32)
  else c

/-- Lower-casing of the whole prompt answer. -/
def pyLower (s : String) : String := ⟨s.data.map pyLowerChar⟩

/-- The confirmation gate of apply_migrations (main.py line 317):
input(message).lower() in ("y", "д"). -/
def affirmative (resp : String) : Bool :=
  pyLower resp = "y" || pyLower resp = "д"

/-- One confirmation round of DBReviser.apply_migrations (main.py lines
304-331), returning the statements actually sent to the cursor: nothing when
no artifact exists or the operator declines; otherwise every non-empty line
of the latest artifact in file order (the `if script:` filter). -/
def applyRoundExecuted (listing : List String) (content : String → List String)
    (resp : String) : Except PyErr (List String) := do
  let last_migration ← find_latest_migration_file listing
  match last_migration with
  | none => pure []
  | some f =>
    if affirmative resp then pure ((content f).filter (fun s => !s.isEmpty))
    else pure []

/-- Column clause as worded by the spec (section 4.1, table creation): base
name and type, then NOT NULL if non-nullable, PRIMARY KEY or UNIQUE from the
key kind, a quoted DEFAULT if a default exists, and the extra modifier
appended verbatim. -/
def specColumnClause (c : DescCol) : String :=
  c.name ++ " " ++ c.type
  ++ (if c.nullable = "NO" then " NOT NULL" else "")
  ++ (if c.key = "PRI" then " PRIMARY KEY" else if c.key = "UNI" then " UNIQUE" else "")
  ++ (match c.default with
      | some d => " DEFAULT \x27" ++ d ++ "\x27"
      | none => "")
  ++ (if c.extra = "" then "" else " " ++ c.extra)

/-- Optional clause tail of an ADD/MODIFY column statement as worded by the
spec (section 4.1, shared column-clause builder): PRIMARY KEY if flagged,
AUTO_INCREMENT if marked, NOT NULL if not nullable, an unquoted DEFAULT if a
default is present, COMMENT if a comment is present. -/
def specAlterTail (f : Field) (pk : Bool) : String :=
  (if pk then " PRIMARY KEY" else "")
  ++ (if optTruthy f.autoincrement then " AUTO_INCREMENT" else "")
  ++ (if optTruthy f.nullable then "" else " NOT NULL")
  ++ (match f.default with
      | some d => " DEFAULT " ++ d
      | none => "")
  ++ (match f.comment with
      | some c => if c = "" then "" else " COMMENT \x27" ++ c ++ "\x27"
      | none => "")

theorem joinWith_cons_of_ne_nil (sep x : String) {l : List String} (h : l ≠ []) :
    joinWith sep (x :: l) = x ++ sep ++ joinWith sep l := by
  cases l with
  | nil => exact absurd rfl h
  | cons y rest => rfl

theorem joinWith_append (sep : String) {xs ys : List String}
    (hx : xs ≠ []) (hy : ys ≠ []) :
    joinWith sep (xs ++ ys) = joinWith sep xs ++ sep ++ joinWith sep ys := by
  induction xs with
  | nil => exact absurd rfl hx
  | cons x rest ih =>
    cases rest with
    | nil =>
      simpa [joinWith] using joinWith_cons_of_ne_nil sep x hy
    | cons x2 rest2 =>
      have h1 : (x2 :: rest2 : List String) ≠ [] := by simp
      have h2 : (x2 :: rest2 ++ ys : List String) ≠ [] := by simp
      calc joinWith sep (x :: x2 :: rest2 ++ ys)
          = x ++ sep ++ joinWith sep (x2 :: rest2 ++ ys) := by
            simpa using joinWith_cons_of_ne_nil sep x h2
        _ = x ++ sep ++ (joinWith sep (x2 :: rest2) ++ sep ++ joinWith sep ys) := by
            rw [ih (by simp)]
        _ = joinWith sep (x :: x2 :: rest2) ++ sep ++ joinWith sep ys := by
            rw [joinWith_cons_of_ne_nil sep x h1]
            simp [String.append_assoc]

theorem columnDef_eq_spec (c : DescCol) : columnDef c = specColumnClause c := by
  rcases c with ⟨n, ty, nu, k, df, ex⟩
  rcases df with _ | d <;>
    (simp only [columnDef, specColumnClause]
     split_ifs <;> simp_all [String.ext_iff, String.data_append])

/-- Claim C1: the spec requires the foreign-key handler to collect one DROP
per right_only entry followed by one ADD per left_only entry before
returning.  The code instead returns from inside the left_only loop: with two
left_only additions only the first ADD statement is produced, and with an
empty left_only list the already-built DROP statements are discarded (the
function returns None). -/
theorem c1_fk_handler_behavior :
    process_foreign_keys "prod"
        ⟨[], [⟨"fk_a", ["x"], "rt", ["u"]⟩, ⟨"fk_b", ["y"], "rt2", ["v"]⟩]⟩ "t"
      = .ok (some "ALTER TABLE prod.t ADD CONSTRAINT fk_a FOREIGN KEY (x) REFERENCES prod.rt(u);")
    ∧ process_foreign_keys "prod" ⟨[⟨"fk_old", ["p"], "rt3", ["q"]⟩], []⟩ "t" = .ok none :=
  ⟨rfl, rfl⟩

/-- Claim C2, counterexample: for a present DiffModel whose tables facet and
tables_data facet are both empty, compare_schemas produces empty output but
still writes a migration artifact and does not report the databases as
identical, contradicting the claim. -/
theorem c2_empty_diff_counterexample :
    compare_schemas "prod" (fun _ => []) (some ⟨⟨[], []⟩, []⟩)
        = .ok ⟨false, false, "", true⟩
    ∧ RunReport.artifactWritten ⟨false, false, "", true⟩ = true
    ∧ RunReport.reportedIdentical ⟨false, false, "", true⟩ = false :=
  ⟨rfl, rfl, rfl⟩

/-- Claim C2, amended: only when the schema comparison reports a match (no
diff object is produced) does the run report the databases as identical, with
empty output and no artifact written; a DiffModel that is present with both
facets empty still produces empty output and requests no second run, but an
empty artifact is written and the identical message is not printed. -/
theorem c2_empty_diff_amended :
    (∀ (rdb : String) (schemaOf : String → List DescCol),
      compare_schemas rdb schemaOf none = .ok ⟨false, true, "", false⟩)
    ∧ (∀ (rdb : String) (schemaOf : String → List DescCol),
      compare_schemas rdb schemaOf (some ⟨⟨[], []⟩, []⟩) = .ok ⟨false, false, "", true⟩) :=
  ⟨fun _ _ => rfl, fun _ _ => rfl⟩

/-- Claim C3, counterexample: a right_only foreign-key descriptor whose
constrained-columns list has two entries does not make compilation raise; its
DROP statement is emitted (only referred_columns is checked on the drop
path). -/
theorem c3_fk_multicolumn_counterexample :
    process_foreign_keys "prod"
        ⟨[⟨"fk_bad", ["a", "b"], "rt", ["x"]⟩], [⟨"fk_g", ["c"], "rt", ["z"]⟩]⟩ "t"
      = .ok (some ("ALTER TABLE prod.t DROP FOREIGN KEY fk_bad;\n"
          ++ "ALTER TABLE prod.t ADD CONSTRAINT fk_g FOREIGN KEY (c) REFERENCES prod.rt(z);")) := by
  rfl

/-- Claim C5: compiling a left_only table t with the single DESCRIBE row
(id, INT, NO, PRI, None, AUTO_INCREMENT) yields exactly the expected CREATE
TABLE statement, and in general the column clause is assembled as the spec
words it. -/
theorem c5_create_table :
    (∀ rdb : String,
      create_table_script rdb "t" [⟨"id", "INT", "NO", "PRI", none, "AUTO_INCREMENT"⟩]
        = "CREATE TABLE " ++ rdb ++ ".t (id INT NOT NULL PRIMARY KEY AUTO_INCREMENT);")
    ∧ (∀ c : DescCol, columnDef c = specColumnClause c) := by
  constructor
  · intro rdb
    simp [create_table_script, columnDef, joinWith, String.append_assoc]
  · exact columnDef_eq_spec

/-- Claim C6: every column diff pair is compiled from its left descriptor
into an ALTER TABLE MODIFY COLUMN statement whose optional clauses follow in
the order PRIMARY KEY, AUTO_INCREMENT, NOT NULL, unquoted DEFAULT, COMMENT;
in particular the left descriptor (age, INT, nullable) outside the left
primary-key set yields a bare MODIFY COLUMN statement. -/
theorem c6_modify_column :
    (∀ (rdb t : String) (f : Field) (pk : Bool),
      alter_table_writer rdb t f "MODIFY" pk
        = "ALTER TABLE " ++ rdb ++ "." ++ t ++ " MODIFY COLUMN " ++ f.name ++ " " ++ f.type
          ++ specAlterTail f pk ++ ";")
    ∧ (∀ (rdb t : String) (pks : List String),
      pkFlag pks "age" = false →
      process_same_columns_change rdb [⟨⟨"age", "INT", some true, none, none, none⟩, none⟩] pks t
        = "ALTER TABLE " ++ rdb ++ "." ++ t ++ " MODIFY COLUMN age INT;") := by
  constructor
  · intro rdb t f pk
    unfold alter_table_writer specAlterTail
    simp [String.append_assoc]
  · intro rdb t pks h
    unfold process_same_columns_change
    simp [joinNL, joinWith, alter_table_writer, h, optTruthy, String.append_assoc]

/-- Witness for claim C6 at a concrete primary-key set. -/
theorem c6_modify_column_witness :
    process_same_columns_change "prod"
        [⟨⟨"age", "INT", some true, none, none, none⟩, none⟩] ["id"] "t"
      = "ALTER TABLE " ++ "prod" ++ "." ++ "t" ++ " MODIFY COLUMN age INT;" :=
  c6_modify_column.2 "prod" "t" ["id"] (by decide)

/-- Claim C10: the ADD/MODIFY clause builder appends NOT NULL on the
truthiness of the optional nullable field, so an absent key or a false value
both yield NOT NULL, while the table-creation clause appends NOT NULL exactly
when the DESCRIBE nullability string equals NO. -/
theorem c10_nullable_truthiness :
    (∀ (rdb t n ty : String),
      alter_table_writer rdb t ⟨n, ty, none, none, none, none⟩ "ADD" false
        = "ALTER TABLE " ++ rdb ++ "." ++ t ++ " ADD COLUMN " ++ n ++ " " ++ ty ++ " NOT NULL;")
    ∧ (∀ (rdb t n ty : String),
      alter_table_writer rdb t ⟨n, ty, some false, none, none, none⟩ "ADD" false
        = "ALTER TABLE " ++ rdb ++ "." ++ t ++ " ADD COLUMN " ++ n ++ " " ++ ty ++ " NOT NULL;")
    ∧ (∀ (rdb t n ty : String),
      alter_table_writer rdb t ⟨n, ty, some true, none, none, none⟩ "ADD" false
        = "ALTER TABLE " ++ rdb ++ "." ++ t ++ " ADD COLUMN " ++ n ++ " " ++ ty ++ ";")
    ∧ (∀ n ty : String, columnDef ⟨n, ty, "YES", "", none, ""⟩ = n ++ " " ++ ty)
    ∧ (∀ n ty : String,
      columnDef ⟨n, ty, "NO", "", none, ""⟩ = n ++ " " ++ ty ++ " NOT NULL") := by
  refine ⟨?_, ?_, ?_, ?_, ?_⟩ <;> intros <;>
    simp [alter_table_writer, columnDef, optTruthy, String.append_assoc]

@[simp] theorem errBind {ε α β : Type} (e : ε) (f : α → Except ε β) :
    (Except.error e >>= f) = Except.error e := rfl

@[simp] theorem okBind {ε α β : Type} (a : α) (f : α → Except ε β) :
    (Except.ok a >>= f) = f a := rfl

theorem fkDropStmts_err (rdb t : String) {l : List FKey}
    (h : ∃ k ∈ l, k.referred_columns.length > 1) :
    fkDropStmts rdb t l = .error (.notImplemented fkErrMsg) := by
  induction l with
  | nil => rcases h with ⟨k, hk, _⟩; cases hk
  | cons a rest ih =>
    by_cases ha : a.referred_columns.length > 1
    · simp [fkDropStmts, ha]
    · rcases h with ⟨k, hk, hlen⟩
      rcases List.mem_cons.mp hk with h1 | h2
      · exact absurd (h1 ▸ hlen) ha
      · simp [fkDropStmts, ha, ih ⟨k, h2, hlen⟩]

theorem fkDropStmts_ok (rdb t : String) {l : List FKey}
    (h : ∀ k ∈ l, k.referred_columns.length ≤ 1) :
    ∃ v, fkDropStmts rdb t l = .ok v := by
  induction l with
  | nil => exact ⟨[], rfl⟩
  | cons a rest ih =>
    have ha : ¬ a.referred_columns.length > 1 := by
      have := h a (List.mem_cons_self a rest); omega
    rcases ih (fun k hk => h k (List.mem_cons_of_mem a hk)) with ⟨v, hv⟩
    refine ⟨("ALTER TABLE " ++ rdb ++ "." ++ t ++ " DROP FOREIGN KEY " ++ a.name ++ ";") :: v, ?_⟩
    simp [fkDropStmts, ha, hv]

/-- Claim C3, amended: in the foreign-key handler, a right_only descriptor is
rejected exactly when its referred-columns list has more than one entry (a
multi-entry constrained-columns list on a drop is not checked); once all
right_only descriptors pass, only the first left_only descriptor is ever
examined, and it is rejected when its constrained-columns list has more than
one entry, or exactly one entry while its referred-columns list has more than
one; the rejection happens before any statement is returned. -/
theorem c3_fk_multicolumn_amended (rdb t : String) (fks : FKFacet) :
    process_foreign_keys rdb fks t = .error (.notImplemented fkErrMsg) ↔
      ((∃ k ∈ fks.right_only, k.referred_columns.length > 1) ∨
       ((∀ k ∈ fks.right_only, k.referred_columns.length ≤ 1) ∧
        match fks.left_only with
        | [] => False
        | k :: _ => k.constrained_columns.length > 1 ∨
            (k.constrained_columns.length = 1 ∧ k.referred_columns.length > 1))) := by
  by_cases hr : ∃ k ∈ fks.right_only, k.referred_columns.length > 1
  · have hd := fkDropStmts_err rdb t hr
    simp [process_foreign_keys, hd, hr]
  · push_neg at hr
    have hr' : ∀ k ∈ fks.right_only, k.referred_columns.length ≤ 1 :=
      fun k hk => by have := hr k hk; omega
    rcases fkDropStmts_ok rdb t hr' with ⟨v, hv⟩
    have hrn : ¬ ∃ k ∈ fks.right_only, k.referred_columns.length > 1 := by
      rintro ⟨k, hk, hlen⟩; exact absurd hlen (by have := hr' k hk; omega)
    rcases hl : fks.left_only with _ | ⟨k, rest⟩
    · simp [process_foreign_keys, hv, hl, hrn]
    · rcases hcc : k.constrained_columns with _ | ⟨c, ccs⟩
      · simp [process_foreign_keys, hv, hl, hcc, hrn, hr']
      · rcases hccs : ccs with _ | ⟨c2, ccs2⟩
        · rcases hrc : k.referred_columns with _ | ⟨r1, rcs⟩
          · simp [process_foreign_keys, hv, hl, hcc, hccs, hrc, hrn, hr']
          · rcases hrcs : rcs with _ | ⟨r2, rcs2⟩
            · simp [process_foreign_keys, hv, hl, hcc, hccs, hrc, hrcs, hrn, hr']
            · simp [process_foreign_keys, hv, hl, hcc, hccs, hrc, hrcs, hrn]
              exact hr'
        · simp [process_foreign_keys, hv, hl, hcc, hccs, hrn]
          exact hr'

/-- Witness for the amended claim C3: a first left_only descriptor with two
constrained columns makes compilation fail with the unsupported-feature
error. -/
theorem c3_fk_multicolumn_witness :
    process_foreign_keys "prod" ⟨[], [⟨"fk_m", ["a", "b"], "rt", ["x"]⟩]⟩ "t"
      = .error (.notImplemented fkErrMsg) :=
  (c3_fk_multicolumn_amended "prod" "t" ⟨[], [⟨"fk_m", ["a", "b"], "rt", ["x"]⟩]⟩).mpr
    (by right; exact ⟨by simp, by left; decide⟩)

theorem idxDropStmts_err {rdb t : String} {l : List IndexD}
    (h : ∃ i ∈ l, i.column_names.length > 1) :
    idxDropStmts rdb t l = .error (.notImplemented idxErrMsg) := by
  induction l with
  | nil => rcases h with ⟨i, hi, _⟩; cases hi
  | cons a rest ih =>
    by_cases ha : a.column_names.length > 1
    · simp [idxDropStmts, ha]
    · rcases h with ⟨i, hi, hlen⟩
      rcases List.mem_cons.mp hi with h1 | h2
      · exact absurd (h1 ▸ hlen) ha
      · simp [idxDropStmts, ha, ih ⟨i, h2, hlen⟩]

theorem idxDropStmts_ok (rdb t : String) {l : List IndexD}
    (h : ∀ i ∈ l, i.column_names.length ≤ 1) :
    ∃ v, idxDropStmts rdb t l = .ok v := by
  induction l with
  | nil => exact ⟨[], rfl⟩
  | cons a rest ih =>
    have ha : ¬ a.column_names.length > 1 := by
      have := h a (List.mem_cons_self a rest); omega
    rcases ih (fun i hi => h i (List.mem_cons_of_mem a hi)) with ⟨v, hv⟩
    refine ⟨("DROP INDEX " ++ a.name ++ " ON " ++ rdb ++ "." ++ t ++ ";") :: v, ?_⟩
    simp [idxDropStmts, ha, hv]

theorem idxCreateStmts_err {rdb t : String} {l : List IndexD}
    (hne : ∀ i ∈ l, i.column_names ≠ [])
    (h : ∃ i ∈ l, i.column_names.length > 1) :
    idxCreateStmts rdb t l = .error (.notImplemented idxErrMsg) := by
  induction l with
  | nil => rcases h with ⟨i, hi, _⟩; cases hi
  | cons a rest ih =>
    by_cases ha : a.column_names.length > 1
    · simp [idxCreateStmts, ha]
    · rcases h with ⟨i, hi, hlen⟩
      rcases List.mem_cons.mp hi with h1 | h2
      · exact absurd (h1 ▸ hlen) ha
      · have hrec := ih (fun i hi => hne i (List.mem_cons_of_mem a hi)) ⟨i, h2, hlen⟩
        rcases hcn : a.column_names with _ | ⟨c, cs⟩
        · exact absurd hcn (hne a (List.mem_cons_self a rest))
        · simp [idxCreateStmts, ha, hcn, hrec]

/-- Claim C4: whenever some index descriptor in the removal or the creation
list has more than one column name (and index descriptors have non-empty
column lists, as reflected ones always do), compiling the indexes facet
raises the unsupported-feature error, so no statement at all is emitted for
that index. -/
theorem c4_index_multicolumn (rdb t : String) (indexes : IdxFacet)
    (hne : ∀ i ∈ indexes.left_only, i.column_names ≠ [])
    (h : (∃ i ∈ indexes.right_only, i.column_names.length > 1)
        ∨ (∃ i ∈ indexes.left_only, i.column_names.length > 1)) :
    process_index_change rdb indexes t = .error (.notImplemented idxErrMsg) := by
  by_cases hr : ∃ i ∈ indexes.right_only, i.column_names.length > 1
  · simp [process_index_change, idxDropStmts_err hr]
  · rcases h with h | h
    · exact absurd h hr
    · push_neg at hr
      have hr' : ∀ i ∈ indexes.right_only, i.column_names.length ≤ 1 :=
        fun i hi => by have := hr i hi; omega
      rcases idxDropStmts_ok rdb t hr' with ⟨v, hv⟩
      simp [process_index_change, hv, idxCreateStmts_err hne h]

/-- Witness for claim C4: a creation-list index over two columns is rejected. -/
theorem c4_index_multicolumn_witness :
    process_index_change "prod" ⟨[], [⟨"ix", ["a", "b"], false⟩]⟩ "t"
      = .error (.notImplemented idxErrMsg) :=
  c4_index_multicolumn "prod" "t" ⟨[], [⟨"ix", ["a", "b"], false⟩]⟩
    (by decide) (Or.inr (by decide))

/-- Claim C9: in a confirmation round with a latest artifact present, a
response whose lower-casing is not an accepted affirmative token executes no
statement, while an affirmative response executes exactly the non-empty lines
of the latest artifact in file order; y and the localized д are accepted
case-insensitively, everything else declines. -/
theorem c9_confirmation_gate :
    (∀ (listing : List String) (content : String → List String) (resp f : String),
      find_latest_migration_file listing = .ok (some f) →
      (affirmative resp = false → applyRoundExecuted listing content resp = .ok []) ∧
      (affirmative resp = true →
        applyRoundExecuted listing content resp
          = .ok ((content f).filter (fun s => !s.isEmpty))))
    ∧ affirmative "y" = true ∧ affirmative "Y" = true
    ∧ affirmative "д" = true ∧ affirmative "Д" = true
    ∧ affirmative "n" = false ∧ affirmative "N" = false
    ∧ affirmative "yes" = false ∧ affirmative "" = false := by
  refine ⟨?_, rfl, rfl, rfl, rfl, rfl, rfl, rfl, rfl⟩
  intro listing content resp f hf
  constructor <;> intro ha <;> simp [applyRoundExecuted, hf, ha, pure, Except.pure]

/-- Witness for claim C9 at a concrete listing, artifact and responses. -/
theorem c9_confirmation_gate_witness :
    applyRoundExecuted ["migration_2023-01-01-10-00"] (fun _ => ["A;", "", "B;"]) "n" = .ok []
    ∧ applyRoundExecuted ["migration_2023-01-01-10-00"] (fun _ => ["A;", "", "B;"]) "Y"
        = .ok ["A;", "B;"] := by
  constructor
  · exact (c9_confirmation_gate.1 _ (fun _ => ["A;", "", "B;"]) "n"
      "migration_2023-01-01-10-00" (by rfl)).1 (by rfl)
  · exact (c9_confirmation_gate.1 _ (fun _ => ["A;", "", "B;"]) "Y"
      "migration_2023-01-01-10-00" (by rfl)).2 (by rfl)

theorem joinNL_append_two (xs : List String) {ys zs : List String} (hy : ys ≠ []) (hz : zs ≠ []) :
    joinNL (xs ++ [joinNL ys, joinNL zs]) = joinNL (xs ++ ys ++ zs) := by
  rcases xs with _ | ⟨x, xs2⟩
  · simp only [List.nil_append, joinNL]
    rw [joinWith_append "\n" hy hz]
    rfl
  · have hx : (x :: xs2 : List String) ≠ [] := by simp
    have hyz : ys ++ zs ≠ [] := by simp [hy]
    simp only [joinNL, List.append_assoc]
    rw [joinWith_append "\n" hx
        (by simp : ([joinWith "\n" ys, joinWith "\n" zs] : List String) ≠ []),
      joinWith_append "\n" hx hyz, joinWith_append "\n" hy hz]
    rfl

/-- Claim C7: the compiler emits all CREATE TABLE statements before all DROP
table statements within the tables facet; for each table of tables_data the
facet sub-order is columns, then indexes, then primary keys, then foreign
keys; and within the columns facet the right_only drops precede the
left_only additions, which precede the modifications. -/
theorem c7_statement_order :
    (∀ (rdb : String) (schemaOf : String → List DescCol) (tables : TablesFacet),
      tables.left_only ≠ [] → tables.right_only ≠ [] →
      (∀ t ∈ tables.left_only, !(schemaOf t).isEmpty) →
      process_schema_change rdb schemaOf tables
        = joinNL (tables.left_only.map (fun t => create_table_script rdb t (schemaOf t))
            ++ tables.right_only.map
              (fun table => "DROP table " ++ rdb ++ "." ++ table ++ ";")))
    ∧ (∀ (rdb t : String) (changes : TableDiff) (cols : ColumnsFacet) (idxF : IdxFacet)
        (pkF : PKFacet) (fkF : FKFacet) (si sf : String),
      changes.columns = some cols → changes.indexes = some idxF →
      changes.primary_keys = some pkF → changes.foreign_keys = some fkF →
      process_index_change rdb idxF t = .ok si →
      process_foreign_keys rdb fkF t = .ok (some sf) →
      process_tables_change rdb [(t, changes)]
        = .ok (joinNL [process_column_change rdb cols pkF t, si,
            process_primary_keys rdb pkF t, sf]))
    ∧ (∀ (rdb t : String) (cols : ColumnsFacet) (pks : PKFacet),
      cols.left_only ≠ [] → cols.diff ≠ [] →
      process_column_change rdb cols pks t
        = joinNL (cols.right_only.map
              (fun c => "ALTER TABLE " ++ rdb ++ "." ++ t ++ " DROP COLUMN " ++ c.name ++ ";")
            ++ cols.left_only.map
              (fun f => alter_table_writer rdb t f "ADD" (pkFlag pks.left_only f.name))
            ++ cols.diff.map
              (fun p => alter_table_writer rdb t p.left "MODIFY"
                (pkFlag pks.left_only p.left.name)))) := by
  refine ⟨?_, ?_, ?_⟩
  · intro rdb schemaOf tables h1 h2 h3
    have hfil : tables.left_only.filter (fun t => !(schemaOf t).isEmpty)
        = tables.left_only := List.filter_eq_self.mpr h3
    have hA : tables.left_only.map (fun t => create_table_script rdb t (schemaOf t)) ≠ [] := by
      simpa using h1
    have hB : tables.right_only.map
        (fun table => "DROP table " ++ rdb ++ "." ++ table ++ ";") ≠ [] := by
      simpa using h2
    have h1e : tables.left_only.isEmpty = false := by
      simpa [List.isEmpty_iff] using h1
    have h2e : tables.right_only.isEmpty = false := by
      simpa [List.isEmpty_iff] using h2
    simp only [process_schema_change, read_db_schema, create_tables_ddl, hfil, h1e, h2e,
      Bool.false_eq_true, if_false, List.map_map, Function.comp_def]
    simpa using joinNL_append_two [] hA hB
  · intro rdb t changes cols idxF pkF fkF si sf hc hi hp hf hsi hsf
    simp [process_tables_change, tablesCmds, tableCmds, hc, hi, hp, hf, hsi, hsf, pyJoin]
  · intro rdb t cols pks hAdd hMod
    have hA : cols.left_only.map
        (fun f => alter_table_writer rdb t f "ADD" (pkFlag pks.left_only f.name)) ≠ [] := by
      simpa using hAdd
    have hM : cols.diff.map
        (fun p => alter_table_writer rdb t p.left "MODIFY"
          (pkFlag pks.left_only p.left.name)) ≠ [] := by
      simpa using hMod
    simp only [process_column_change, process_diff_columns_change,
      process_same_columns_change]
    exact joinNL_append_two _ hA hM

/-- Witness for claim C7 at concrete inputs: a one-table creation plus a
one-table drop, a one-table diff with all four facets, and a columns facet
with one drop, one addition and one modification. -/
theorem c7_statement_order_witness :
    process_schema_change "prod" (fun _ => [⟨"id", "INT", "NO", "", none, ""⟩]) ⟨["a"], ["b"]⟩
      = joinNL (["a"].map (fun t =>
            create_table_script "prod" t [⟨"id", "INT", "NO", "", none, ""⟩])
          ++ ["b"].map (fun table => "DROP table " ++ "prod" ++ "." ++ table ++ ";"))
    ∧ process_column_change "prod"
        ⟨[⟨"c0", "INT", none, none, none, none⟩], [⟨"c1", "INT", none, none, none, none⟩],
          [⟨⟨"c2", "TEXT", none, none, none, none⟩, none⟩]⟩ ⟨[], []⟩ "t"
      = joinNL ([⟨"c0", "INT", none, none, none, none⟩].map
            (fun c : Field => "ALTER TABLE " ++ "prod" ++ "." ++ "t"
              ++ " DROP COLUMN " ++ c.name ++ ";")
          ++ [⟨"c1", "INT", none, none, none, none⟩].map
            (fun f : Field => alter_table_writer "prod" "t" f "ADD" (pkFlag [] f.name))
          ++ [⟨⟨"c2", "TEXT", none, none, none, none⟩, none⟩].map
            (fun p : DiffPair => alter_table_writer "prod" "t" p.left "MODIFY"
              (pkFlag [] p.left.name))) := by
  constructor
  · exact c7_statement_order.1 "prod" (fun _ => [⟨"id", "INT", "NO", "", none, ""⟩])
      ⟨["a"], ["b"]⟩ (by simp) (by simp) (by simp)
  · exact c7_statement_order.2.2 "prod" "t" _ ⟨[], []⟩ (by simp) (by simp)

theorem findLatestGo_nomatch (files : List String) :
    ∀ acc : Option (TS × String), (∀ f ∈ files, matchTS f = none) →
      findLatestGo files acc = .ok (acc.map (fun p => p.2)) := by
  induction files with
  | nil => intro acc _; rfl
  | cons f rest ih =>
    intro acc h
    have hf := h f (List.mem_cons_self f rest)
    simp only [findLatestGo, hf]
    exact ih acc (fun g hg => h g (List.mem_cons_of_mem f hg))

theorem findLatestGo_ok_some (files : List String) :
    ∀ (acc : Option (TS × String)) (g : String),
      findLatestGo files acc = .ok (some g) →
      ∃ tg : TS,
        (acc = some (tg, g) ∨ (g ∈ files ∧ matchTS g = some tg ∧ timeValid tg = true)) ∧
        (∀ f ∈ files, ∀ t : TS, matchTS f = some t → timeValid t = true →
          t.encode ≤ tg.encode) ∧
        (∀ (t0 : TS) (f0 : String), acc = some (t0, f0) → t0.encode ≤ tg.encode) := by
  induction files with
  | nil =>
    intro acc g h
    rcases acc with _ | ⟨t0, f0⟩
    · simp [findLatestGo] at h
    · simp only [findLatestGo, Option.map_some] at h
      have h3 : f0 = g := Option.some.inj (Except.ok.inj h)
      subst h3
      refine ⟨t0, Or.inl rfl, by simp, ?_⟩
      rintro t1 f1 h4
      have he1 : t0 = t1 := congrArg Prod.fst (Option.some.inj h4)
      rw [← he1]
  | cons file rest ih =>
    intro acc g h
    rcases hm : matchTS file with _ | t
    · simp only [findLatestGo, hm] at h
      rcases ih acc g h with ⟨tg, hd, hmax, hacc⟩
      refine ⟨tg, ?_, ?_, hacc⟩
      · rcases hd with hd | ⟨hmem, hg⟩
        · exact Or.inl hd
        · exact Or.inr ⟨List.mem_cons_of_mem file hmem, hg⟩
      · intro f hf t1 hmt hv
        rcases List.mem_cons.mp hf with rfl | hf2
        · rw [hm] at hmt; cases hmt
        · exact hmax f hf2 t1 hmt hv
    · rcases hv : timeValid t with _ | _
      · rcases acc with _ | ⟨t0, f0⟩ <;> simp [findLatestGo, hm, hv] at h
      · rcases acc with _ | ⟨t0, f0⟩
        · simp only [findLatestGo, hm, hv, if_true] at h
          rcases ih (some (t, file)) g h with ⟨tg, hd, hmax, hacc⟩
          have htle : t.encode ≤ tg.encode := hacc t file rfl
          refine ⟨tg, ?_, ?_, by rintro t1 f1 ⟨⟩⟩
          · rcases hd with hd | ⟨hmem, hg⟩
            · have hd2 : (t, file) = (tg, g) := Option.some.inj hd
              have he1 : t = tg := congrArg Prod.fst hd2
              have he2 : file = g := congrArg Prod.snd hd2
              subst he1; subst he2
              exact Or.inr ⟨List.mem_cons_self file rest, hm, hv⟩
            · exact Or.inr ⟨List.mem_cons_of_mem file hmem, hg⟩
          · intro f hf t1 hmt hv1
            rcases List.mem_cons.mp hf with rfl | hf2
            · rw [hm] at hmt
              have he : t = t1 := Option.some.inj hmt
              exact he ▸ htle
            · exact hmax f hf2 t1 hmt hv1
        · by_cases hlt : t0.encode < t.encode
          · simp only [findLatestGo, hm, hv, if_true, if_pos hlt] at h
            rcases ih (some (t, file)) g h with ⟨tg, hd, hmax, hacc⟩
            have htle : t.encode ≤ tg.encode := hacc t file rfl
            refine ⟨tg, ?_, ?_, ?_⟩
            · rcases hd with hd | ⟨hmem, hg⟩
              · have hd2 : (t, file) = (tg, g) := Option.some.inj hd
                have he1 : t = tg := congrArg Prod.fst hd2
                have he2 : file = g := congrArg Prod.snd hd2
                subst he1; subst he2
                exact Or.inr ⟨List.mem_cons_self file rest, hm, hv⟩
              · exact Or.inr ⟨List.mem_cons_of_mem file hmem, hg⟩
            · intro f hf t1 hmt hv1
              rcases List.mem_cons.mp hf with rfl | hf2
              · rw [hm] at hmt
                have he : t = t1 := Option.some.inj hmt
                exact he ▸ htle
              · exact hmax f hf2 t1 hmt hv1
            · rintro t1 f1 h4
              have he1 : t0 = t1 := congrArg Prod.fst (Option.some.inj h4)
              exact he1 ▸ Nat.le_trans (Nat.le_of_lt hlt) htle
          · simp only [findLatestGo, hm, hv, if_true, if_neg hlt] at h
            rcases ih (some (t0, f0)) g h with ⟨tg, hd, hmax, hacc⟩
            have ht0le : t0.encode ≤ tg.encode := hacc t0 f0 rfl
            refine ⟨tg, ?_, ?_, ?_⟩
            · rcases hd with hd | ⟨hmem, hg⟩
              · exact Or.inl hd
              · exact Or.inr ⟨List.mem_cons_of_mem file hmem, hg⟩
            · intro f hf t1 hmt hv1
              rcases List.mem_cons.mp hf with rfl | hf2
              · rw [hm] at hmt
                have he : t = t1 := Option.some.inj hmt
                exact he ▸ Nat.le_trans (Nat.le_of_not_lt hlt) ht0le
              · exact hmax f hf2 t1 hmt hv1
            · rintro t1 f1 h4
              have he1 : t0 = t1 := congrArg Prod.fst (Option.some.inj h4)
              exact he1 ▸ ht0le

/-- Claim C8: latest-migration discovery matches each listing entry against
the prefix plus minute-timestamp pattern, ignores entries that do not match,
returns none when nothing matches, and otherwise returns a matching entry
whose parsed timestamp is chronologically greatest; in particular, among the
two January and February 2023 migration files plus an unrelated file it picks
the February one. -/
theorem c8_latest_discovery :
    find_latest_migration_file
        ["migration_2023-01-01-10-00", "migration_2023-02-01-09-00", "unrelated.txt"]
      = .ok (some "migration_2023-02-01-09-00")
    ∧ (∀ listing : List String, (∀ f ∈ listing, matchTS f = none) →
        find_latest_migration_file listing = .ok none)
    ∧ (∀ (listing : List String) (g : String),
        find_latest_migration_file listing = .ok (some g) →
        g ∈ listing ∧ ∃ tg : TS, matchTS g = some tg ∧
          ∀ f ∈ listing, ∀ t : TS, matchTS f = some t → timeValid t = true →
            t.encode ≤ tg.encode) := by
  refine ⟨by rfl, ?_, ?_⟩
  · intro listing h
    simpa [find_latest_migration_file] using findLatestGo_nomatch listing none h
  · intro listing g h
    rcases findLatestGo_ok_some listing none g h with ⟨tg, hd, hmax, _⟩
    rcases hd with hd | ⟨hmem, hg, _⟩
    · cases hd
    · exact ⟨hmem, tg, hg, hmax⟩

/-- Witness for claim C8: a listing with no matching entry yields none, and
the February file from the concrete listing is indeed a member of it. -/
theorem c8_latest_discovery_witness :
    find_latest_migration_file ["nope.txt", "migrations.bak"] = .ok none
    ∧ "migration_2023-02-01-09-00"
        ∈ ["migration_2023-01-01-10-00", "migration_2023-02-01-09-00", "unrelated.txt"] :=
  ⟨c8_latest_discovery.2.1 ["nope.txt", "migrations.bak"] (by decide),
   (c8_latest_discovery.2.2 _ "migration_2023-02-01-09-00" (by rfl)).1⟩

end DbCompare
